import Mathlib

/-!
Verification of the AppleScript text-protocol bridge of the things3 MCP
server: the output parser chain (`src/applescript/parsers.py`), the value
converter (`src/applescript/converters.py`), the command builder
(`src/applescript/builders.py`), the Things3-specific record parser
(`src/things3/parsers.py`), the todo command generator
(`src/things3/command_builders.py`) and the not-found handling of the API
layer (`src/things3/things3_api.py`).

Python strings are modelled as Lean `String`s (operations are defined over
their character lists).  Python `float` values are carried as their literal
text, since no verified property inspects the numeric value of a float.
-/

set_option maxRecDepth 4096

/-! ## Python string primitives -/

/-- The whitespace characters stripped by Python `str.strip()`
(ASCII subset, which covers every input the bridge handles). -/
def isPyWs (c : Char) : Bool :=
  c = ' ' || c = '\t' || c = '\n' || c = '\r' || c = '\x0b' || c = '\x0c'

/-- `str.strip()` on a character list. -/
def pyStripL (l : List Char) : List Char :=
  ((l.dropWhile isPyWs).reverse.dropWhile isPyWs).reverse

/-- Python `str.strip()`. -/
def pyStrip (s : String) : String := ⟨pyStripL s.data⟩

/-- Python `str.lower()` (ASCII). -/
def pyLower (s : String) : String := ⟨s.data.map Char.toLower⟩

/-- Python `str.capitalize()` (first character upper-cased, rest lower-cased). -/
def pyCapitalize (s : String) : String :=
  match s.data with
  | [] => ""
  | c :: rest => ⟨c.toUpper :: rest.map Char.toLower⟩

/-- Contiguous-sublist test on character lists. -/
def isInfixL (needle : List Char) : List Char → Bool
  | [] => needle.isEmpty
  | c :: rest => needle.isPrefixOf (c :: rest) || isInfixL needle rest

/-- Python `needle in hay` (contiguous substring test). -/
def sContains (hay needle : String) : Bool := isInfixL needle.data hay.data

/-- Python `s.startswith(p)`. -/
def sStarts (s p : String) : Bool := p.data.isPrefixOf s.data

/-- Python `s.endswith(p)`. -/
def sEnds (s p : String) : Bool := p.data.isSuffixOf s.data

/-- Python `", ".join`-style joining. -/
def joinSep (sep : String) : List String → String
  | [] => ""
  | [x] => x
  | x :: y :: xs => x ++ sep ++ joinSep sep (y :: xs)

/-- `s[1:-1]` on an already stripped string: drop first and last character. -/
def dropFirstLast (l : List Char) : List Char := (l.drop 1).dropLast

/-- Decimal digit test. -/
def isDig (c : Char) : Bool := '0' ≤ c && c ≤ '9'

/-- Matches the Python digit-run grammar `digit (_? digit)*` used by
`int()` and `float()` (underscores allowed only between digits). -/
def digitRunAux : List Char → Bool
  | [] => true
  | '_' :: c :: rest => isDig c && digitRunAux rest
  | '_' :: [] => false
  | c :: rest => isDig c && digitRunAux rest

/-- A non-empty digit run per the Python numeric-literal grammar. -/
def digitRun : List Char → Bool
  | [] => false
  | c :: rest => isDig c && digitRunAux rest

/-- Numeric value of a digit run, ignoring underscores. -/
def digitsVal (l : List Char) : Nat :=
  (l.filter (fun c => c ≠ '_')).foldl (fun a c => a * 10 + (c.toNat - '0'.toNat)) 0

/-- Python `int(s)` on a stripped decimal string: optional sign then a
digit run. -/
def pyInt (s : String) : Option Int :=
  match pyStripL s.data with
  | '+' :: rest => if digitRun rest then some (Int.ofNat (digitsVal rest)) else Option.none
  | '-' :: rest => if digitRun rest then some (-(Int.ofNat (digitsVal rest))) else Option.none
  | rest => if digitRun rest then some (Int.ofNat (digitsVal rest)) else Option.none

/-- Split a character list at the first character satisfying `p`. -/
def splitFirst (p : Char → Bool) : List Char → Option (List Char × List Char)
  | [] => Option.none
  | c :: rest =>
    if p c then some ([], rest)
    else match splitFirst p rest with
         | some (a, b) => some (c :: a, b)
         | Option.none => Option.none

/-- The mantissa part of the Python `float()` grammar:
`digits | digits . digits? | . digits | digits .`. -/
def floatMantissaOk (l : List Char) : Bool :=
  match splitFirst (fun c => c = '.') l with
  | Option.none => digitRun l
  | some (a, b) =>
    (digitRun a || a.isEmpty) && (digitRun b || b.isEmpty) && !(a.isEmpty && b.isEmpty)

/-- Whether Python `float(s)` accepts `s` (value not modelled): optional
sign, then `inf`/`infinity`/`nan` (case-insensitive) or a mantissa with an
optional exponent. -/
def pyFloatAccepts (s : String) : Bool :=
  let l := pyStripL s.data
  let l := match l with
           | '+' :: r => r
           | '-' :: r => r
           | r => r
  let low := l.map Char.toLower
  if low = "inf".data || low = "infinity".data || low = "nan".data then true
  else
    match splitFirst (fun c => c = 'e' || c = 'E') l with
    | Option.none => floatMantissaOk l
    | some (m, e) =>
      let e' := match e with
                | '+' :: r => r
                | '-' :: r => r
                | r => r
      floatMantissaOk m && digitRun e'

/-! ## Parsed Python values -/

/-- Values produced by the output parsers (`parsers.py`).  Python floats
are carried as their literal text: no verified property inspects the
numeric value of a float. -/
inductive PyVal where
  | none
  | bool (b : Bool)
  | int (n : Int)
  | float (lit : String)
  | str (s : String)
  | list (xs : List PyVal)
  | dict (kvs : List (String × PyVal))
deriving Repr

/-- The shared `if "." in value: float(value) else: int(value)` numeric
step of `PrimitiveParser.parse` and `StructuredRecordParser._parse_value`
(the `ValueError` branch yields `Option.none`). -/
def pyNumParse (value : String) : Option PyVal :=
  if sContains value "." then
    if pyFloatAccepts value then some (.float value) else Option.none
  else
    match pyInt value with
    | some n => some (.int n)
    | Option.none => Option.none

/-- `AppleScriptParsingError` (`errors.py`): raw output, parser name, and
the optional underlying error (rendered as text). -/
structure ParsingFailure where
  raw_output : String
  parser_type : String
  original_error : Option String
deriving DecidableEq, Repr

/-! ## PrimitiveParser -/

/-- `PrimitiveParser.parse`: empty input is `None`; an all-whitespace
non-empty input is returned unmodified; `true`/`false` case-insensitively
are booleans; then the dot-dispatched numeric parse; else the stripped
string. -/
def primitiveParse (raw : String) : PyVal :=
  if raw = "" then .none
  else
    let value := pyStrip raw
    if value = "" then .str raw
    else if pyLower value = "true" then .bool true
    else if pyLower value = "false" then .bool false
    else
      match pyNumParse value with
      | some v => v
      | Option.none => .str value

/-! ## JSONParser (model of Python `json.loads`, strict mode) -/

/-- JSON insignificant whitespace. -/
def jsonWsChar (c : Char) : Bool := c = ' ' || c = '\t' || c = '\n' || c = '\r'

/-- Hex digit value (code-point arithmetic). -/
def hexVal (c : Char) : Option Nat :=
  let n := c.toNat
  if 48 ≤ n && n ≤ 57 then some (n - 48)
  else if 97 ≤ n && n ≤ 102 then some (n - 87)
  else if 65 ≤ n && n ≤ 70 then some (n - 55)
  else Option.none

/-- The character denoted by a single-letter JSON escape. -/
def jsonEscChar (e : Char) : Option Char :=
  if e = '"' then some '"'
  else if e = '\\' then some '\\'
  else if e = '/' then some '/'
  else if e = 'b' then some '\x08'
  else if e = 'f' then some '\x0c'
  else if e = 'n' then some '\n'
  else if e = 'r' then some '\r'
  else if e = 't' then some '\t'
  else Option.none

/-- Combine four hex digit values into a code point. -/
def hexQuad (a b c d : Nat) : Nat := ((a * 16 + b) * 16 + c) * 16 + d

/-- Decode a JSON string body (opening quote already consumed).  Strict
mode: raw control characters are rejected; recognized escapes only. -/
def jsonString : List Char → Option (List Char × List Char)
  | [] => Option.none
  | '"' :: rest => some ([], rest)
  | '\\' :: 'u' :: h1 :: h2 :: h3 :: h4 :: rest =>
    (match hexVal h1, hexVal h2, hexVal h3, hexVal h4 with
     | some a, some b, some c, some d =>
       (jsonString rest).map
         (fun p => (Char.ofNat (hexQuad a b c d) :: p.1, p.2))
     | _, _, _, _ => Option.none)
  | '\\' :: e :: rest =>
    (match jsonEscChar e with
     | some c => (jsonString rest).map (fun p => (c :: p.1, p.2))
     | Option.none => Option.none)
  | c :: rest =>
    if c.toNat < 32 then Option.none
    else (jsonString rest).map (fun p => (c :: p.1, p.2))

/-- JSON digits (no underscores, unlike Python literals). -/
def jsonDigits : List Char → Bool
  | [] => false
  | l => l.all isDig

/-- Parse a JSON number per RFC 8259, returning `.int` when it has no
fraction or exponent, else `.float` carrying its literal text. -/
def jsonNumber (l : List Char) : Option (PyVal × List Char) :=
  let (sign, l1) : List Char × List Char :=
    match l with
    | '-' :: r => (['-'], r)
    | r => ([], r)
  let ip := l1.takeWhile isDig
  let r2 := l1.dropWhile isDig
  if ip = [] then Option.none
  else if ip.length > 1 && ip.headD ' ' = '0' then Option.none
  else
    let (fp, r3) : List Char × List Char :=
      match r2 with
      | '.' :: r => (r.takeWhile isDig, r.dropWhile isDig)
      | r => ([], r)
    let fracTxt : List Char := match r2 with
      | '.' :: _ => '.' :: fp
      | _ => []
    if r2 ≠ r3 && fp = [] then Option.none
    else
      let (expTxt, r4) : List Char × List Char :=
        match r3 with
        | 'e' :: '+' :: r => ('e' :: '+' :: r.takeWhile isDig, r.dropWhile isDig)
        | 'e' :: '-' :: r => ('e' :: '-' :: r.takeWhile isDig, r.dropWhile isDig)
        | 'e' :: r => ('e' :: r.takeWhile isDig, r.dropWhile isDig)
        | 'E' :: '+' :: r => ('E' :: '+' :: r.takeWhile isDig, r.dropWhile isDig)
        | 'E' :: '-' :: r => ('E' :: '-' :: r.takeWhile isDig, r.dropWhile isDig)
        | 'E' :: r => ('E' :: r.takeWhile isDig, r.dropWhile isDig)
        | r => ([], r)
      if expTxt ≠ [] && !(isDig (expTxt.getLastD ' ')) then Option.none
      else if fracTxt = [] && expTxt = [] then
        let v : Int := Int.ofNat (digitsVal ip)
        some (.int (if sign = [] then v else -v), r3)
      else some (.float ⟨sign ++ ip ++ fracTxt ++ expTxt⟩, r4)

mutual

/-- Parse one JSON value, returning it and the unconsumed remainder. -/
def jsonVal : Nat → List Char → Option (PyVal × List Char)
  | 0, _ => Option.none
  | fuel + 1, l =>
    match l.dropWhile jsonWsChar with
    | '{' :: rest => jsonObj fuel rest
    | '[' :: rest => jsonArr fuel rest
    | '"' :: rest =>
      match jsonString rest with
      | some (s, r) => some (.str ⟨s⟩, r)
      | Option.none => Option.none
    | l' =>
      if ("true".data).isPrefixOf l' then some (.bool true, l'.drop 4)
      else if ("false".data).isPrefixOf l' then some (.bool false, l'.drop 5)
      else if ("null".data).isPrefixOf l' then some (.none, l'.drop 4)
      else if ("NaN".data).isPrefixOf l' then some (.float "nan", l'.drop 3)
      else if ("Infinity".data).isPrefixOf l' then some (.float "inf", l'.drop 8)
      else if ("-Infinity".data).isPrefixOf l' then some (.float "-inf", l'.drop 9)
      else jsonNumber l'

/-- Parse a JSON object after its `{`. -/
def jsonObj : Nat → List Char → Option (PyVal × List Char)
  | 0, _ => Option.none
  | fuel + 1, l =>
    match l.dropWhile jsonWsChar with
    | '}' :: rest => some (.dict [], rest)
    | l' => jsonObjItems fuel l' []

/-- Parse the members of a JSON object (duplicate keys: last wins, as in
Python dict assignment). -/
def jsonObjItems : Nat → List Char → List (String × PyVal) →
    Option (PyVal × List Char)
  | 0, _, _ => Option.none
  | fuel + 1, l, acc =>
    match l.dropWhile jsonWsChar with
    | '"' :: rest =>
      match jsonString rest with
      | some (k, r) =>
        (match r.dropWhile jsonWsChar with
         | ':' :: r2 =>
           match jsonVal fuel r2 with
           | some (v, r3) =>
             let acc' :=
               if acc.any (fun p => p.1 = (⟨k⟩ : String)) then
                 acc.map (fun p => if p.1 = (⟨k⟩ : String) then (⟨k⟩, v) else p)
               else acc ++ [(⟨k⟩, v)]
             (match r3.dropWhile jsonWsChar with
              | ',' :: r4 => jsonObjItems fuel r4 acc'
              | '}' :: r4 => some (.dict acc', r4)
              | _ => Option.none)
           | Option.none => Option.none
         | _ => Option.none)
      | Option.none => Option.none
    | _ => Option.none

/-- Parse a JSON array after its `[`. -/
def jsonArr : Nat → List Char → Option (PyVal × List Char)
  | 0, _ => Option.none
  | fuel + 1, l =>
    match l.dropWhile jsonWsChar with
    | ']' :: rest => some (.list [], rest)
    | l' => jsonArrItems fuel l' []

/-- Parse the elements of a JSON array. -/
def jsonArrItems : Nat → List Char → List PyVal → Option (PyVal × List Char)
  | 0, _, _ => Option.none
  | fuel + 1, l, acc =>
    match jsonVal fuel l with
    | some (v, r) =>
      (match r.dropWhile jsonWsChar with
       | ',' :: r2 => jsonArrItems fuel r2 (acc ++ [v])
       | ']' :: r2 => some (.list (acc ++ [v]), r2)
       | _ => Option.none)
    | Option.none => Option.none

end

/-- Model of Python `json.loads`: one value, then only whitespace may
remain.  Decode-error positions/messages are abstracted to fixed texts. -/
def jsonLoads (s : String) : Except String PyVal :=
  match jsonVal (s.data.length + 1) s.data with
  | Option.none => .error "Expecting value"
  | some (v, rest) =>
    if rest.dropWhile jsonWsChar = [] then .ok v else .error "Extra data"

/-- `JSONParser.can_parse`: brace/bracket delimited, excluding the
AppleScript record format (a colon whose key part contains no quote). -/
def jsonCanParse (raw : String) : Bool :=
  if raw = "" then false
  else
    let s := pyStrip raw
    if (sStarts s "\x7b" && sEnds s "\x7d") || (sStarts s "[" && sEnds s "]") then
      if sContains s ":" && !((s.data.takeWhile (fun c => c ≠ ':')).contains '"') then
        false
      else true
    else false

/-! ## StructuredRecordParser -/

/-- `StructuredRecordParser.can_parse`: doubled-brace record list, or a
single brace-delimited block containing a colon. -/
def structuredCanParse (raw : String) : Bool :=
  if raw = "" then false
  else
    let s := pyStrip raw
    (sStarts s "\x7b\x7b" && sEnds s "\x7d\x7d") ||
      (sStarts s "\x7b" && sContains s ":" && sEnds s "\x7d")

/-- `StructuredRecordParser._split_pairs`: split record content on
depth-0 commas outside quotes, tracking backslash-escape state. -/
def splitPairsGo : List Char → List Char → Int → Bool → Bool →
    List (List Char) → List (List Char)
  | [], cur, _, _, _, acc =>
    if pyStripL cur ≠ [] then acc ++ [pyStripL cur] else acc
  | c :: rest, cur, depth, inStr, esc, acc =>
    if esc then splitPairsGo rest (cur ++ [c]) depth inStr false acc
    else if c = '\\' then splitPairsGo rest (cur ++ [c]) depth inStr true acc
    else if c = '"' then splitPairsGo rest (cur ++ [c]) depth (!inStr) esc acc
    else if !inStr && (c = '(' || c = '\x7b') then
      splitPairsGo rest (cur ++ [c]) (depth + 1) inStr esc acc
    else if !inStr && (c = ')' || c = '\x7d') then
      splitPairsGo rest (cur ++ [c]) (depth - 1) inStr esc acc
    else if !inStr && c = ',' && depth = 0 then
      splitPairsGo rest [] depth inStr esc (acc ++ [pyStripL cur])
    else splitPairsGo rest (cur ++ [c]) depth inStr esc acc

/-- Entry point of `_split_pairs`. -/
def splitPairs (content : List Char) : List (List Char) :=
  splitPairsGo content [] 0 false false []

/-- `StructuredRecordParser._find_separator`: split a pair at the first
colon outside quotes (escape-aware); `Option.none` models index `-1`. -/
def findSepGo : List Char → Bool → Bool → List Char →
    Option (List Char × List Char)
  | [], _, _, _ => Option.none
  | c :: rest, inStr, esc, pre =>
    if esc then findSepGo rest inStr false (pre ++ [c])
    else if c = '\\' then findSepGo rest inStr true (pre ++ [c])
    else if c = '"' then findSepGo rest (!inStr) esc (pre ++ [c])
    else if !inStr && c = ':' then some (pre, rest)
    else findSepGo rest inStr esc (pre ++ [c])

/-- Entry point of `_find_separator`, returning key/value slices. -/
def findSep (pair : List Char) : Option (List Char × List Char) :=
  findSepGo pair false false []

/-- `StructuredRecordParser._parse_value` (base class): missing value,
booleans, quoted strings, `date "…"` forms (tolerating the malformed
variants), numbers, else the text itself. -/
def parseValueBase (v0 : String) : PyVal :=
  let v := pyStrip v0
  if v = "missing value" then .none
  else if pyLower v = "true" then .bool true
  else if pyLower v = "false" then .bool false
  else if sStarts v "\"" && sEnds v "\"" then .str ⟨dropFirstLast v.data⟩
  else if sStarts v "date \"" then
    if sEnds v "\"\x7d" then .str ⟨((v.data.drop 6).dropLast).dropLast⟩
    else if sEnds v "\"" then .str ⟨(v.data.drop 6).dropLast⟩
    else .str ⟨v.data.drop 6⟩
  else
    match pyNumParse v with
    | some x => x
    | Option.none => .str v

/-- Python dict assignment `result[key] = value`: overwrite in place or
append. -/
def dictInsert (kvs : List (String × PyVal)) (k : String) (v : PyVal) :
    List (String × PyVal) :=
  if kvs.any (fun p => p.1 = k) then
    kvs.map (fun p => if p.1 = k then (k, v) else p)
  else kvs ++ [(k, v)]

/-- `StructuredRecordParser._parse_pair` with the `if key:` guard of the caller:
guard: pairs without a separator or with an empty key are dropped. -/
def parsePair (parseValue : String → PyVal) (pair : List Char) :
    Option (String × PyVal) :=
  match findSep pair with
  | Option.none => Option.none
  | some (k, v) =>
    let key := pyStripL k
    if key = [] then Option.none
    else some (⟨key⟩, parseValue ⟨pyStripL v⟩)

/-- `StructuredRecordParser._parse_single_record`, parameterized by the
value parser so the Things3 subclass can override it. -/
def parseSingleRecord (parseValue : String → PyVal) (recordStr : String) :
    List (String × PyVal) :=
  let content := dropFirstLast (pyStripL recordStr.data)
  (splitPairs content).foldl
    (fun acc pair =>
      match parsePair parseValue pair with
      | some (k, v) => dictInsert acc k v
      | Option.none => acc)
    []

/-- The scanning loop of `_parse_multiple_records`: split the interior on
depth-0 `}` boundaries (quote/escape aware).  The `skip` flag models the
inner `while` loop that skips `, \t\n` separator characters after each
completed record. -/
def multiRecordsGo : List Char → List Char → Int → Bool → Bool → Bool →
    List (List Char) → List (List Char)
  | [], cur, _, _, _, _, recs =>
    if pyStripL cur ≠ [] then recs ++ [cur] else recs
  | c :: rest, cur, depth, inStr, esc, skip, recs =>
    if skip && (c = ',' || c = ' ' || c = '\t' || c = '\n') then
      multiRecordsGo rest cur depth inStr esc true recs
    else if esc then multiRecordsGo rest (cur ++ [c]) depth inStr false false recs
    else if c = '\\' then multiRecordsGo rest (cur ++ [c]) depth inStr true false recs
    else if c = '"' then multiRecordsGo rest (cur ++ [c]) depth (!inStr) esc false recs
    else if !inStr then
      if c = '\x7b' then
        multiRecordsGo rest (cur ++ [c]) (depth + 1) inStr esc false recs
      else if c = '\x7d' then
        if depth = 0 then
          multiRecordsGo rest [] depth inStr esc true (recs ++ [cur ++ [c]])
        else multiRecordsGo rest (cur ++ [c]) (depth - 1) inStr esc false recs
      else multiRecordsGo rest (cur ++ [c]) depth inStr esc false recs
    else multiRecordsGo rest (cur ++ [c]) depth inStr esc false recs

/-- `StructuredRecordParser._parse_multiple_records`: strip the doubled
braces, split into record fragments, re-wrap fragments lacking a leading
brace, and parse each as a single record. -/
def parseMultipleRecords (parseValue : String → PyVal) (content : String) :
    List PyVal :=
  let inner := ((content.data.drop 2).dropLast).dropLast
  let records := multiRecordsGo inner [] 0 false false false []
  records.filterMap (fun record =>
    if pyStripL record ≠ [] then
      let wrapped : List Char :=
        if ("\x7b".data).isPrefixOf record then record
        else '\x7b' :: (record ++ ['\x7d'])
      some (.dict (parseSingleRecord parseValue ⟨wrapped⟩))
    else Option.none)

/-- `StructuredRecordParser.parse`.  The `except` wrapper of the Python body is
dead in this model: every step of the scanner is total. -/
def structuredParseWith (parseValue : String → PyVal) (raw : String) :
    Except ParsingFailure PyVal :=
  let s := pyStrip raw
  if sStarts s "\x7b\x7b" && sEnds s "\x7d\x7d" then
    .ok (.list (parseMultipleRecords parseValue s))
  else .ok (.dict (parseSingleRecord parseValue s))

/-- `StructuredRecordParser.parse` with the base value parser. -/
def structuredParse : String → Except ParsingFailure PyVal :=
  structuredParseWith parseValueBase

/-! ## DateParser -/

/-- `re.match` of `^date "(.+)"$` on the stripped output: the group is
everything between the fixed head and the final quote, non-empty and free
of newlines (`.` does not match a newline). -/
def dateMatch (s : String) : Option String :=
  let l := s.data
  if ("date \"".data).isPrefixOf l && l.getLastD ' ' = '"' && l.length ≥ 8 then
    let inner := (l.drop 6).dropLast
    if inner ≠ [] && inner.all (fun c => c ≠ '\n') then some ⟨inner⟩
    else Option.none
  else Option.none

/-- `DateParser.can_parse`. -/
def dateCanParse (raw : String) : Bool := (dateMatch (pyStrip raw)).isSome

/-- `DateParser.parse`: extract the date text, else a parsing failure with
no underlying error. -/
def dateParse (raw : String) : Except ParsingFailure PyVal :=
  match dateMatch (pyStrip raw) with
  | some inner => .ok (.str inner)
  | Option.none => .error ⟨raw, "DateParser", Option.none⟩

/-! ## ListParser -/

/-- `ListParser.can_parse`: brace-delimited, no colon, not doubled-brace. -/
def listCanParse (raw : String) : Bool :=
  if raw = "" then false
  else
    let s := pyStrip raw
    sStarts s "\x7b" && sEnds s "\x7d" && !(sContains s ":") &&
      !(sStarts s "\x7b\x7b")

/-- The item-splitting loop of `ListParser.parse` (quote-aware commas;
the final item is appended when non-empty before stripping). -/
def listSplitGo : List Char → List Char → Bool → List (List Char) →
    List (List Char)
  | [], cur, _, items => if cur ≠ [] then items ++ [pyStripL cur] else items
  | c :: rest, cur, inQuotes, items =>
    if c = '"' then listSplitGo rest (cur ++ [c]) (!inQuotes) items
    else if c = ',' && !inQuotes then listSplitGo rest [] inQuotes (items ++ [pyStripL cur])
    else listSplitGo rest (cur ++ [c]) inQuotes items

/-- `ListParser.parse`: split items, then strip surrounding quotes per
item. -/
def listParse (raw : String) : PyVal :=
  let content := dropFirstLast (pyStripL raw.data)
  if content = [] then .list []
  else
    let items := listSplitGo content [] false []
    .list (items.map (fun item =>
      if ("\"".data).isPrefixOf item && ("\"".data).isSuffixOf item then
        .str ⟨dropFirstLast item⟩
      else .str ⟨item⟩))

/-! ## ParserChain -/

/-- A parser strategy: name, applicability predicate, parse routine. -/
structure Parser where
  name : String
  canParse : String → Bool
  parse : String → Except ParsingFailure PyVal

/-- `JSONParser` as a strategy: a decode error becomes an
`AppleScriptParsingError` carrying the raw text and the cause. -/
def jsonParserS : Parser :=
  ⟨"JSONParser", jsonCanParse, fun raw =>
    match jsonLoads raw with
    | .ok v => .ok v
    | .error e => .error ⟨raw, "JSONParser", some e⟩⟩

/-- `StructuredRecordParser` as a strategy. -/
def structuredRecordParserS : Parser :=
  ⟨"StructuredRecordParser", structuredCanParse, structuredParse⟩

/-- `DateParser` as a strategy. -/
def dateParserS : Parser := ⟨"DateParser", dateCanParse, dateParse⟩

/-- `ListParser` as a strategy. -/
def listParserS : Parser :=
  ⟨"ListParser", listCanParse, fun raw => .ok (listParse raw)⟩

/-- `PrimitiveParser` as a strategy (always applicable). -/
def primitiveParserS : Parser :=
  ⟨"PrimitiveParser", fun _ => true, fun raw => .ok (primitiveParse raw)⟩

/-- `ParserChain._default_parsers`. -/
def defaultParsers : List Parser :=
  [jsonParserS, structuredRecordParserS, dateParserS, listParserS, primitiveParserS]

/-- The strategy loop of `ParserChain.parse`: first applicable parser
wins; an empty list raises the failure of the chain itself. -/
def chainGo : List Parser → String → Except ParsingFailure PyVal
  | [], raw =>
    .error ⟨raw, "No suitable parser", some "No parser could handle the output"⟩
  | p :: ps, raw => if p.canParse raw then p.parse raw else chainGo ps raw

/-- `ParserChain.parse`: empty output short-circuits to `None`. -/
def chainParse (parsers : List Parser) (raw : String) :
    Except ParsingFailure PyVal :=
  if raw = "" then .ok .none else chainGo parsers raw

/-! ## PythonToAppleScriptConverter -/

/-- Decimal digits of a natural (most significant first), with enough
fuel; empty on zero. -/
def natDigitsAux : Nat → Nat → List Char
  | 0, _ => []
  | _, 0 => []
  | fuel + 1, n + 1 =>
    natDigitsAux fuel ((n + 1) / 10) ++ [Char.ofNat ('0'.toNat + (n + 1) % 10)]

/-- Decimal digits of a positive natural (most significant first). -/
def natDigits (n : Nat) : List Char := natDigitsAux n n

/-- Python `str` of a natural number. -/
def natRepr (n : Nat) : String := if n = 0 then "0" else ⟨natDigits n⟩

/-- Python `str` of an int. -/
def intRepr (i : Int) : String :=
  if i < 0 then "-" ++ natRepr i.natAbs else natRepr i.natAbs

/-- The reference prefixes recognized by
`PythonToAppleScriptConverter._is_applescript_expression`. -/
def exprReferencePrefixes : List String :=
  ["area id ", "project id ", "tag id ", "to do id ",
   "area ", "project ", "tag ", "list "]

/-- `_is_applescript_expression`: date expressions, date arithmetic,
object-reference prefixes, and the special literals `missing value`,
`true`, `false`. -/
def isAppleScriptExpr (s0 : String) : Bool :=
  let s := pyStrip s0
  if s = "current date" || s = "(current date)" then true
  else if sStarts s "(current date)" && (sContains s "+" || sContains s "-") &&
      sContains s "days" then true
  else if exprReferencePrefixes.any (fun p => sStarts s p) then true
  else if s = "missing value" || s = "true" || s = "false" then true
  else false

/-- `s.replace('"', '\\"')` on a character list. -/
def escQuotes : List Char → List Char
  | [] => []
  | c :: rest =>
    if c = '"' then '\\' :: '"' :: escQuotes rest else c :: escQuotes rest

/-- `_quote_string`: escape internal quotes and wrap in quotes. -/
def quoteString (s : String) : String := ⟨'"' :: (escQuotes s.data ++ ['"'])⟩

/-- `_format_date`: relative-offset date expression computed against the
wall-clock date at conversion time.  Dates are modelled as day numbers;
`today` is the current date, `target` the converted one. -/
def formatDate (today target : Int) : String :=
  let daysDiff := target - today
  if daysDiff = 0 then "current date"
  else if daysDiff = 1 then "(current date) + (1 * days)"
  else if daysDiff = -1 then "(current date) - (1 * days)"
  else if daysDiff > 0 then
    "(current date) + (" ++ intRepr daysDiff ++ " * days)"
  else "(current date) - (" ++ intRepr (-daysDiff) ++ " * days)"

/-- Convertible Python values handed to
`PythonToAppleScriptConverter.convert`.  Dates/datetimes are modelled by
their calendar day number (`_format_date` only uses `.date()`); floats are
carried by their `str()` rendering. -/
inductive AppleValue where
  | null
  | bool (b : Bool)
  | int (n : Int)
  | float (lit : String)
  | str (s : String)
  | date (day : Int)
  | list (xs : List AppleValue)
  | dict (kvs : List (String × AppleValue))
deriving Repr

mutual

/-- `PythonToAppleScriptConverter.convert`, with the current wall-clock
day passed explicitly. -/
def convert (today : Int) : AppleValue → String
  | .null => "missing value"
  | .bool b => if b then "true" else "false"
  | .int n => intRepr n
  | .float lit => lit
  | .str s => if isAppleScriptExpr s then s else quoteString s
  | .date d => formatDate today d
  | .list xs =>
    if xs.isEmpty then "\x7b\x7d"
    else "\x7b" ++ joinSep ", " (convertL today xs) ++ "\x7d"
  | .dict kvs =>
    if kvs.isEmpty then "\x7b\x7d"
    else "\x7b" ++ joinSep ", " (convertD today kvs) ++ "\x7d"

/-- `_convert_list` elements. -/
def convertL (today : Int) : List AppleValue → List String
  | [] => []
  | v :: vs => convert today v :: convertL today vs

/-- `_convert_dict` entries (keys unquoted). -/
def convertD (today : Int) : List (String × AppleValue) → List String
  | [] => []
  | (k, v) :: kvs => (k ++ ":" ++ convert today v) :: convertD today kvs

end

/-! ## AppleScriptReferenceConverter -/

/-- `format_reference`: by-id or by-name reference text. -/
def formatReference (refType identifier : String) (byId : Bool) : String :=
  if byId then refType ++ " id \"" ++ identifier ++ "\""
  else refType ++ " \"" ++ identifier ++ "\""

/-- `is_reference`: the value starts with one of the expanded
`REFERENCE_PATTERNS` prefixes (each pattern with and without `id `). -/
def isReference (value : String) : Bool :=
  ["project id ", "project ", "area id ", "area ", "tag ", "to do id ",
   "to do ", "list "].any (fun p => sStarts value p)

/-! ## AppleScriptCommand (builders.py) -/

/-- A statement appended to `AppleScriptCommand._commands`, kept
structured; `renderStmt` produces the exact text the Python methods
append. -/
inductive Stmt where
  | rawCmd (s : String)
  | setProp (prop of_ val : String)
  | getProp (prop : String) (of_ : Option String)
  | del (ref : String)
  | move (ref to_ : String)
  | ret (e : String)
deriving Repr, DecidableEq

/-- The statement text built by each `AppleScriptCommand` method. -/
def renderStmt : Stmt → String
  | .rawCmd s => s
  | .setProp p o v => "set " ++ p ++ " of " ++ o ++ " to " ++ v
  | .getProp p (some o) => "get " ++ p ++ " of " ++ o
  | .getProp p Option.none => "get " ++ p
  | .del r => "delete " ++ r
  | .move r t => "move " ++ r ++ " to " ++ t
  | .ret e => "return " ++ e

/-- The value conversion of `AppleScriptCommand.set`: a string already
recognized as an AppleScript expression is passed through, anything else
goes through the converter. -/
def convertSetValue (today : Int) (to_ : AppleValue) : String :=
  match to_ with
  | .str s => if isAppleScriptExpr s then s else convert today (.str s)
  | v => convert today v

/-- The state of an `AppleScriptCommand`: the application to tell, the
appended statements, and the optional raw-script override.  `build` reads
this state and does not mutate it. -/
structure CmdState where
  tellApp : Option String
  commands : List Stmt
  rawScript : Option String
deriving Repr

/-- The failure case of `build`.  The spec names it `EmptyCommandError`; the
source raises `ValueError("No commands added to build")`. -/
inductive BuildError where
  | emptyCommand
deriving Repr, DecidableEq

/-- `AppleScriptCommand.build`: the raw override wins; an empty command
fails; otherwise statements are joined (and wrapped in a tell block when
an application was set). -/
def build (c : CmdState) : Except BuildError String :=
  match c.rawScript with
  | some r => .ok r
  | Option.none =>
    if c.commands = [] then .error .emptyCommand
    else
      match c.tellApp with
      | some app =>
        .ok ("tell application \"" ++ app ++ "\"\n    " ++
          joinSep "\n    " (c.commands.map renderStmt) ++ "\nend tell")
      | Option.none => .ok (joinSep "\n" (c.commands.map renderStmt))

/-! ## TodoCommandBuilder (command_builders.py) -/

/-- A `due_date` value as seen by `_add_todo_property_commands`: either a
date/datetime (day number) or a string (keyword or free text). -/
inductive DueVal where
  | date (day : Int)
  | text (s : String)
deriving Repr

/-- Python truthiness of a present `due_date` value (dates are always
truthy; only the empty string is falsy among strings). -/
def dueTruthy : DueVal → Bool
  | .date _ => true
  | .text s => s ≠ ""

/-- `Things3CommandBuilder._format_date`: lower-cased relative keywords
pass through, anything else goes to the converter.  The `if not
date_value` guard is the falsy check of the caller, handled before this. -/
def builderFormatDate (today : Int) : DueVal → String
  | .date d => convert today (.date d)
  | .text s =>
    if pyLower s = "today" || pyLower s = "tomorrow" || pyLower s = "evening" ||
        pyLower s = "anytime" || pyLower s = "someday" then pyLower s
    else convert today (.str s)

/-- `Things3CommandBuilder._format_reference` (for a truthy `ref`):
existing references and `<type> id ` prefixes pass through, else the value
is treated as a name. -/
def formatReferenceB (ref refType : String) : String :=
  if isReference ref then ref
  else if sStarts ref (refType ++ " id ") then ref
  else refType ++ " \"" ++ ref ++ "\""

/-- The field-update map consumed by `_add_todo_property_commands`.  An
outer `Option.none` is an absent key; `some Option.none` is a key
explicitly present with value `None`. -/
structure TodoUpdateData where
  due_date : Option (Option DueVal) := Option.none
  tags : Option (List String) := Option.none
  project : Option (Option String) := Option.none
  area : Option (Option String) := Option.none
  whenKey : Option String := Option.none
  checklist : Option (List String) := Option.none

/-- The due-date branch of `_add_todo_property_commands` (truthy value:
set from `_format_date` unless it renders falsy; falsy value: delete the
property). -/
def dueDateStmts (today : Int) (todoRef : String) :
    Option (Option DueVal) → List Stmt
  | Option.none => []
  | some Option.none => [.del ("due date of " ++ todoRef)]
  | some (some dv) =>
    if dueTruthy dv then
      let dateExpr := builderFormatDate today dv
      if dateExpr ≠ "" then
        [.setProp "due date" todoRef (convertSetValue today (.str dateExpr))]
      else []
    else [.del ("due date of " ++ todoRef)]

/-- The tags branch: non-empty list joins the names, empty list clears
them. -/
def tagStmts (today : Int) (todoRef : String) : Option (List String) → List Stmt
  | Option.none => []
  | some ts =>
    if ts ≠ [] then
      [.setProp "tag names" todoRef (convertSetValue today (.str (joinSep ", " ts)))]
    else [.setProp "tag names" todoRef (convertSetValue today (.str ""))]

/-- The project branch: truthy value moves into the project, falsy moves
back to the Inbox. -/
def projectStmts (todoRef : String) : Option (Option String) → List Stmt
  | Option.none => []
  | some Option.none => [.move todoRef "list \"Inbox\""]
  | some (some p) =>
    if p ≠ "" then [.move todoRef (formatReferenceB p "project")]
    else [.move todoRef "list \"Inbox\""]

/-- The area branch: truthy value sets the area reference, falsy sets
`missing value`. -/
def areaStmts (today : Int) (todoRef : String) :
    Option (Option String) → List Stmt
  | Option.none => []
  | some Option.none => [.setProp "area" todoRef (convertSetValue today (.str "missing value"))]
  | some (some a) =>
    if a ≠ "" then
      [.setProp "area" todoRef (convertSetValue today (.str (formatReferenceB a "area")))]
    else [.setProp "area" todoRef (convertSetValue today (.str "missing value"))]

/-- `_add_scheduling_command`: `tomorrow` moves to Today and sets a due
date one day out; the four list keywords move to the capitalized list. -/
def schedulingStmts (today : Int) (todoRef : String) : Option String → List Stmt
  | Option.none => []
  | some w =>
    let wl := pyLower w
    if wl = "tomorrow" then
      [.move todoRef "list \"Today\"",
       .setProp "due date" todoRef
         (convertSetValue today (.str "(current date) + (1 * days)"))]
    else if wl = "today" || wl = "upcoming" || wl = "anytime" || wl = "someday" then
      [.move todoRef ("list \"" ++ pyCapitalize wl ++ "\"")]
    else []

/-- `_add_checklist_commands`, guarded by the caller check
`"newTodo" in todo_ref`. -/
def checklistStmts (today : Int) (todoRef : String) :
    Option (List String) → List Stmt
  | Option.none => []
  | some items =>
    if sContains todoRef "newTodo" then
      items.map (fun it =>
        .rawCmd ("tell " ++ todoRef ++ " to make new checklist item " ++
          "with properties \x7bname:" ++ convert today (.str it) ++ "\x7d"))
    else []

/-- `TodoCommandBuilder._add_todo_property_commands`: the statements it
appends, in source order (due date, tags, project, area, when,
checklist). -/
def addTodoPropertyCommands (today : Int) (todoRef : String)
    (data : TodoUpdateData) : List Stmt :=
  dueDateStmts today todoRef data.due_date ++
  tagStmts today todoRef data.tags ++
  projectStmts todoRef data.project ++
  areaStmts today todoRef data.area ++
  schedulingStmts today todoRef data.whenKey ++
  checklistStmts today todoRef data.checklist

/-- A due-date statement: a property set of `due date` or a delete of the
`due date` property of the todo. -/
def isDueDateStmt (todoRef : String) : Stmt → Bool
  | .setProp p _ _ => p = "due date"
  | .del r => r = ("due date of " ++ todoRef)
  | _ => false

/-! ## Things3RecordParser (things3/parsers.py) -/

/-- Chars matched by the regex classes `\w` and `\s` (ASCII). -/
def wordChar (c : Char) : Bool := c.isAlphanum || c = '_'

/-- Full match of `^<pre>.*<suf>$` where `.` excludes newlines. -/
def regexDotStarWrap (pre suf l : List Char) : Bool :=
  pre.isPrefixOf l && suf.isSuffixOf l &&
    decide (pre.length + suf.length ≤ l.length) &&
    ((l.drop pre.length).take (l.length - pre.length - suf.length)).all
      (fun c => c ≠ '\n')

/-- The five `_is_things3_reference` pattern heads (each anchored pattern
continues `.*" of application "Things3"`). -/
def things3RefHeads : List (List Char) :=
  ["project id \"".data, "area id \"".data, "to do id \"".data,
   "tag \"".data, "list \"".data]

/-- `Things3RecordParser._is_things3_reference`. -/
def isThings3Reference (v : String) : Bool :=
  things3RefHeads.any
    (fun pre => regexDotStarWrap pre ("\" of application \"Things3\"".data) v.data)

/-- The tail `"([^"]+)"$` of the simplification regex: an opening quote,
a non-empty quote-free group, a closing quote, end of input. -/
def quotedTailGroup (r : List Char) : Option (List Char) :=
  match r with
  | '"' :: rest =>
    if rest ≠ [] && rest.getLastD ' ' = '"' &&
        (rest.dropLast).all (fun c => c ≠ '"') && rest.dropLast ≠ [] then
      some rest.dropLast
    else Option.none
  | _ => Option.none

/-- The match of regex `^(\w+)(?:\s+id)?\s+"([^"]+)"$` against `simplified`: the leading
word run, maximal whitespace, an optional literal `id` followed by more
whitespace, then the quoted group.  (Maximal runs are forced: `\w`, `\s`
and `"` are disjoint, so backtracking cannot produce other splits.) -/
def simplifiedRefMatch (l : List Char) : Option (List Char × List Char) :=
  let w := l.takeWhile wordChar
  let r1 := l.dropWhile wordChar
  if w = [] then Option.none
  else
    let s1 := r1.takeWhile isPyWs
    let r2 := r1.dropWhile isPyWs
    if s1 = [] then Option.none
    else
      match r2 with
      | 'i' :: 'd' :: r3 =>
        let s2 := r3.takeWhile isPyWs
        let r4 := r3.dropWhile isPyWs
        if s2 ≠ [] then
          match quotedTailGroup r4 with
          | some g => some (w, g)
          | Option.none => Option.none
        else
          (match quotedTailGroup r2 with
           | some g => some (w, g)
           | Option.none => Option.none)
      | _ =>
        match quotedTailGroup r2 with
        | some g => some (w, g)
        | Option.none => Option.none

/-- Python `s.split(sep)[0]`: the characters before the first occurrence
of `sep` (the whole list when absent). -/
def splitOnInfixHead (sep : List Char) : List Char → List Char
  | [] => []
  | c :: rest =>
    if sep.isPrefixOf (c :: rest) then []
    else c :: splitOnInfixHead sep rest

/-- `Things3RecordParser._parse_things3_reference`: strip the
`of application` qualifier, then simplify `type ["id"] "value"` to the
canonical short token; on regex failure return the qualifier-stripped
text. -/
def parseThings3Reference (valueStr : String) : String :=
  let simplified := (splitOnInfixHead " of application ".data valueStr.data)
  match simplifiedRefMatch simplified with
  | some (objType, identifier) =>
    if sContains valueStr " id " then ⟨objType⟩ ++ " id " ++ ⟨identifier⟩
    else ⟨objType⟩ ++ " " ++ ⟨identifier⟩
  | Option.none => ⟨simplified⟩

/-- `Things3RecordParser._parse_value`: Things3 references are
simplified, every other value goes to the base parser. -/
def things3ParseValue (v : String) : PyVal :=
  let vs := pyStrip v
  if isThings3Reference vs then .str (parseThings3Reference vs)
  else parseValueBase vs

/-! ## Things3API not-found handling (things3_api.py) -/

/-- Python truthiness of a parsed value (`if not props`). -/
def pyTruthy : PyVal → Bool
  | .none => false
  | .bool b => b
  | .int n => n ≠ 0
  | .float lit => lit ≠ "0.0"
  | .str s => s ≠ ""
  | .list xs => !xs.isEmpty
  | .dict kvs => !kvs.isEmpty

/-- The kind of an `AppleScriptError` raised by the orchestrator. -/
inductive ASErrKind where
  | exec
  | timeout
  | parsing
deriving DecidableEq, Repr

/-- An `AppleScriptError` as observed by the API layer: its kind and its
`str()` rendering (the only thing the not-found check consults). -/
structure ASError where
  kind : ASErrKind
  text : String
deriving DecidableEq, Repr

/-- The shared body of `get_todo`/`get_project`/`get_area`/`get_tag`:
run the command; falsy output is `None`; an `AppleScriptError` whose text
contains the not-found pattern of the entity becomes `None`, any other error
re-raises.  The entity-specific `_parse_*` step is the `parse`
parameter. -/
def getByIdOp (pattern : String) (parse : PyVal → α)
    (res : Except ASError PyVal) : Except ASError (Option α) :=
  match res with
  | .ok props => if pyTruthy props then .ok (some (parse props)) else .ok Option.none
  | .error e => if sContains e.text pattern then .ok Option.none else .error e

/-- `Things3API.get_todo` given the orchestrator outcome. -/
def getTodoOp (parse : PyVal → α) : Except ASError PyVal → Except ASError (Option α) :=
  getByIdOp "Can't get to do id" parse

/-- `Things3API.get_project` given the orchestrator outcome. -/
def getProjectOp (parse : PyVal → α) : Except ASError PyVal → Except ASError (Option α) :=
  getByIdOp "Can't get project id" parse

/-- `Things3API.get_area` given the orchestrator outcome. -/
def getAreaOp (parse : PyVal → α) : Except ASError PyVal → Except ASError (Option α) :=
  getByIdOp "Can't get area id" parse

/-- `Things3API.get_tag` given the orchestrator outcome. -/
def getTagOp (parse : PyVal → α) : Except ASError PyVal → Except ASError (Option α) :=
  getByIdOp "Can't get tag id" parse

/-- Side condition for C10: the rendering of a float literal never starts with
a quote character (true of every Python `str(float)` output). -/
def floatLitOk : AppleValue → Bool
  | .float lit => !(sStarts lit "\"")
  | _ => true

/-! ## Claims -/

/-- Claim C7: the structured-record parser does not split on delimiters
inside quoted strings: parsing `{name:"a, b: c", id:"x"}` yields the
two-key record mapping `name` to `a, b: c` and `id` to `x`; the comma and
colon inside the quoted value neither split the pairs nor act as
key-value separators. -/
theorem c7_quote_safety :
    structuredParse "\x7bname:\"a, b: c\", id:\"x\"\x7d" =
      .ok (.dict [("name", .str "a, b: c"), ("id", .str "x")]) := rfl

/-- Claim C2 counterexample: on `{a,b,c}` the default chain does not
yield a three-element list: the JSON parser predicate claims the input
(brace-delimited, and the no-colon case escapes the record exclusion),
its strict decode fails, and the chain surfaces the parsing failure. -/
theorem c2_counterexample :
    chainParse defaultParsers "\x7ba,b,c\x7d" =
      .error ⟨"\x7ba,b,c\x7d", "JSONParser", some "Expecting value"⟩ ∧
    chainParse defaultParsers "\x7ba,b,c\x7d" ≠
      .ok (.list [.str "a", .str "b", .str "c"]) := by
  refine ⟨rfl, ?_⟩
  intro h
  rw [show chainParse defaultParsers "\x7ba,b,c\x7d" =
    .error ⟨"\x7ba,b,c\x7d", "JSONParser", some "Expecting value"⟩ from rfl] at h
  exact Except.noConfusion h

/-- Claim C2 amended: `{{a:1},{a:2}}` parses to a two-element list of
records and `{a:1}` to a single record, but `{a,b,c}` is claimed by the
JSON parser (its predicate accepts colon-free brace-delimited text) and
raises a ParsingFailure from the chain; only the list parser invoked
directly parses it to the three-element plain list. -/
theorem c2_amended :
    chainParse defaultParsers "\x7b\x7ba:1\x7d,\x7ba:2\x7d\x7d" =
      .ok (.list [.dict [("a", .str "1\x7d")], .dict [("a", .str "")]]) ∧
    chainParse defaultParsers "\x7ba:1\x7d" = .ok (.dict [("a", .int 1)]) ∧
    chainParse defaultParsers "\x7ba,b,c\x7d" =
      .error ⟨"\x7ba,b,c\x7d", "JSONParser", some "Expecting value"⟩ ∧
    listParse "\x7ba,b,c\x7d" = .list [.str "a", .str "b", .str "c"] := by
  refine ⟨?_, ?_, ?_, ?_⟩ <;> rfl

/-- Claim C3 counterexample: the by-name raw host form for `project` is
not recognized by the reference simplifier (its patterns only cover the
by-id forms of project/area/to do and the by-name forms of tag/list), so
the raw text passes through unchanged instead of round-tripping to the
canonical token `project Work`. -/
theorem c3_counterexample :
    things3ParseValue "project \"Work\" of application \"Things3\"" =
      .str "project \"Work\" of application \"Things3\"" ∧
    things3ParseValue "project \"Work\" of application \"Things3\"" ≠
      .str "project Work" := by
  refine ⟨rfl, ?_⟩
  intro h
  rw [show things3ParseValue "project \"Work\" of application \"Things3\"" =
    .str "project \"Work\" of application \"Things3\"" from rfl] at h
  injection h with h'
  exact absurd h' (by decide)

/-- Claim C3 amended: for representative quote-free id/name values, the
round trip holds exactly for the by-id raw forms of `project` and `area`
and the by-name raw forms of `tag` and `list`: parsing the raw host
reference (the formatted reference plus the `of application "Things3"`
qualifier) yields the canonical short token.  The by-id `to do` form is
only stripped of its qualifier (quotes retained), and the remaining
type/form combinations (by-name project/area/to do, by-id tag/list) pass
through unparsed. -/
theorem c3_amended : ∀ v ∈ (["ABC123", "Work", "x"] : List String),
    things3ParseValue (formatReference "project" v true ++
      " of application \"Things3\"") = .str ("project id " ++ v) ∧
    things3ParseValue (formatReference "area" v true ++
      " of application \"Things3\"") = .str ("area id " ++ v) ∧
    things3ParseValue (formatReference "tag" v false ++
      " of application \"Things3\"") = .str ("tag " ++ v) ∧
    things3ParseValue (formatReference "list" v false ++
      " of application \"Things3\"") = .str ("list " ++ v) ∧
    things3ParseValue (formatReference "to do" v true ++
      " of application \"Things3\"") = .str ("to do id \"" ++ v ++ "\"") ∧
    things3ParseValue (formatReference "project" v false ++
      " of application \"Things3\"") =
      .str (formatReference "project" v false ++ " of application \"Things3\"") ∧
    things3ParseValue (formatReference "area" v false ++
      " of application \"Things3\"") =
      .str (formatReference "area" v false ++ " of application \"Things3\"") ∧
    things3ParseValue (formatReference "to do" v false ++
      " of application \"Things3\"") =
      .str (formatReference "to do" v false ++ " of application \"Things3\"") ∧
    things3ParseValue (formatReference "tag" v true ++
      " of application \"Things3\"") =
      .str (formatReference "tag" v true ++ " of application \"Things3\"") ∧
    things3ParseValue (formatReference "list" v true ++
      " of application \"Things3\"") =
      .str (formatReference "list" v true ++ " of application \"Things3\"") := by
  intro v hv
  fin_cases hv <;>
    refine ⟨?_, ?_, ?_, ?_, ?_, ?_, ?_, ?_, ?_, ?_⟩ <;> rfl

/-- Witness for the amended C3 at a concrete value. -/
theorem c3_amended_witness :
    things3ParseValue (formatReference "tag" "Work" false ++
      " of application \"Things3\"") = .str "tag Work" :=
  (c3_amended "Work" (by simp)).2.2.1

/-- Claim C9 counterexample: on `1e5` an integer parse of the trimmed
text fails yet a float parse succeeds, so the claimed
"integer parse then float parse" algorithm would yield a number — but the
code dispatches on the presence of a decimal point and returns the string
`1e5`. -/
theorem c9_counterexample :
    pyInt "1e5" = Option.none ∧ pyFloatAccepts "1e5" = true ∧
    primitiveParse "1e5" = .str "1e5" := by
  refine ⟨?_, ?_, ?_⟩ <;> rfl

/-- Claim C9 amended: the primitive fallback parser maps empty input to
null; returns a non-empty all-whitespace input unmodified; maps
case-insensitive `true`/`false` of the trimmed text to booleans; then, if
the trimmed text contains a decimal point, attempts a float parse, and
otherwise an integer parse (so exponent notation without a dot, such as
`1e5`, is not float-parsed); on numeric failure the trimmed text is
returned as a string. -/
theorem c9_amended (raw : String) :
    (raw = "" → primitiveParse raw = .none) ∧
    (raw ≠ "" → pyStrip raw = "" → primitiveParse raw = .str raw) ∧
    (raw ≠ "" → pyLower (pyStrip raw) = "true" → primitiveParse raw = .bool true) ∧
    (raw ≠ "" → pyLower (pyStrip raw) = "false" → primitiveParse raw = .bool false) ∧
    (raw ≠ "" → pyStrip raw ≠ "" → pyLower (pyStrip raw) ≠ "true" →
      pyLower (pyStrip raw) ≠ "false" →
      (sContains (pyStrip raw) "." = true →
        (pyFloatAccepts (pyStrip raw) = true →
          primitiveParse raw = .float (pyStrip raw)) ∧
        (pyFloatAccepts (pyStrip raw) = false →
          primitiveParse raw = .str (pyStrip raw))) ∧
      (sContains (pyStrip raw) "." = false →
        (∀ n, pyInt (pyStrip raw) = some n → primitiveParse raw = .int n) ∧
        (pyInt (pyStrip raw) = Option.none →
          primitiveParse raw = .str (pyStrip raw)))) := by
  refine ⟨?_, ?_, ?_, ?_, ?_⟩
  · intro h; simp [primitiveParse, h]
  · intro h1 h2; simp [primitiveParse, h1, h2]
  · intro h1 h2
    have h3 : pyStrip raw ≠ "" := by
      intro he; rw [he] at h2; exact absurd h2 (by decide)
    simp [primitiveParse, h1, h2, h3]
  · intro h1 h2
    have h3 : pyStrip raw ≠ "" := by
      intro he; rw [he] at h2; exact absurd h2 (by decide)
    simp [primitiveParse, h1, h2, h3]
  · intro h1 h2 h3 h4
    refine ⟨?_, ?_⟩
    · intro hdot
      refine ⟨?_, ?_⟩ <;> intro hf <;>
        simp [primitiveParse, pyNumParse, h1, h2, h3, h4, hdot, hf]
    · intro hdot
      refine ⟨?_, ?_⟩
      · intro n hn
        simp [primitiveParse, pyNumParse, h1, h2, h3, h4, hdot, hn]
      · intro hn
        simp [primitiveParse, pyNumParse, h1, h2, h3, h4, hdot, hn]

/-- Witness for the amended C9 at concrete inputs. -/
theorem c9_amended_witness :
    primitiveParse "" = .none ∧ primitiveParse "  " = .str "  " ∧
    primitiveParse " TRUE " = .bool true ∧ primitiveParse "3.14" = .float "3.14" ∧
    primitiveParse "-10" = .int (-10) ∧ primitiveParse "hello" = .str "hello" :=
  ⟨(c9_amended "").1 rfl,
   (c9_amended "  ").2.1 (by decide) rfl,
   (c9_amended " TRUE ").2.2.1 (by decide) rfl,
   ((c9_amended "3.14").2.2.2.2 (by decide) (by decide) (by decide) (by decide)).1
     rfl |>.1 rfl,
   ((c9_amended "-10").2.2.2.2 (by decide) (by decide) (by decide) (by decide)).2
     rfl |>.1 (-10) rfl,
   ((c9_amended "hello").2.2.2.2 (by decide) (by decide) (by decide) (by decide)).2
     rfl |>.2 rfl⟩

/-- Claim C4: `build` returns a raw override verbatim regardless of the
appended statements; with no raw override and no statements it always
fails with the empty-command error; and two builds of the same unmutated
command state return identical text (`build` reads, never writes, the
state). -/
theorem c4_build (c : CmdState) :
    (∀ r, c.rawScript = some r → build c = .ok r) ∧
    (c.rawScript = Option.none → c.commands = [] → build c = .error .emptyCommand) ∧
    build c = build c := by
  refine ⟨?_, ?_, rfl⟩
  · intro r hr; simp [build, hr]
  · intro h0 h1; simp [build, h0, h1]

/-- Witness for C4 at concrete command states (a raw override beats
appended statements; an empty command fails). -/
theorem c4_build_witness :
    build ⟨some "Things3", [.ret "1"], some "raw body"⟩ = .ok "raw body" ∧
    build ⟨some "Things3", [], Option.none⟩ = .error .emptyCommand :=
  ⟨(c4_build ⟨some "Things3", [.ret "1"], some "raw body"⟩).1 "raw body" rfl,
   (c4_build ⟨some "Things3", [], Option.none⟩).2.1 rfl rfl⟩

/-- Claim C6: date conversion is a relative offset against the wall-clock
day at conversion time: a zero-day distance yields `current date`,
distances of exactly one day (either direction) yield the special-cased
one-day expressions, and larger distances yield the generic form whose N
is the absolute day distance. -/
theorem c6_format_date (today target : Int) :
    (target - today = 0 → formatDate today target = "current date") ∧
    (target - today = 1 →
      formatDate today target = "(current date) + (1 * days)") ∧
    (target - today = -1 →
      formatDate today target = "(current date) - (1 * days)") ∧
    (target - today > 1 → formatDate today target =
      "(current date) + (" ++ intRepr (target - today) ++ " * days)") ∧
    (target - today < -1 → formatDate today target =
      "(current date) - (" ++ intRepr (today - target) ++ " * days)") := by
  refine ⟨?_, ?_, ?_, ?_, ?_⟩ <;> intro h
  · simp [formatDate, h]
  · simp [formatDate, h]
  · simp [formatDate, h]
  · have h0 : ¬(target - today = 0) := by omega
    have h1 : ¬(target - today = 1) := by omega
    have h2 : ¬(target - today = -1) := by omega
    have h3 : target - today > 0 := by omega
    simp [formatDate, h0, h1, h2, h3]
  · have h0 : ¬(target - today = 0) := by omega
    have h1 : ¬(target - today = 1) := by omega
    have h2 : ¬(target - today = -1) := by omega
    have h3 : ¬(target - today > 0) := by omega
    have h4 : -(target - today) = today - target := by ring
    simp [formatDate, h0, h1, h2, h3, h4]

/-- Witness for C6 at concrete dates (day 100 as "today"). -/
theorem c6_format_date_witness :
    formatDate 100 100 = "current date" ∧
    formatDate 100 101 = "(current date) + (1 * days)" ∧
    formatDate 100 99 = "(current date) - (1 * days)" ∧
    formatDate 100 110 = "(current date) + (" ++ intRepr 10 ++ " * days)" ∧
    formatDate 100 90 = "(current date) - (" ++ intRepr 10 ++ " * days)" :=
  ⟨(c6_format_date 100 100).1 rfl,
   (c6_format_date 100 101).2.1 rfl,
   (c6_format_date 100 99).2.2.1 rfl,
   (c6_format_date 100 110).2.2.2.1 (by decide),
   (c6_format_date 100 90).2.2.2.2 (by decide)⟩

/-- Claim C8: every get-by-id read operation maps an execution failure
whose error text contains the per-entity not-found pattern to an
empty (not-found) result, and propagates any other failure unchanged. -/
theorem c8_not_found (α : Type) (parse : PyVal → α) (e : ASError)
    (_hkind : e.kind = .exec) :
    (sContains e.text "Can't get to do id" = true →
      getTodoOp parse (.error e) = .ok Option.none) ∧
    (sContains e.text "Can't get to do id" = false →
      getTodoOp parse (.error e) = .error e) ∧
    (sContains e.text "Can't get project id" = true →
      getProjectOp parse (.error e) = .ok Option.none) ∧
    (sContains e.text "Can't get project id" = false →
      getProjectOp parse (.error e) = .error e) ∧
    (sContains e.text "Can't get area id" = true →
      getAreaOp parse (.error e) = .ok Option.none) ∧
    (sContains e.text "Can't get area id" = false →
      getAreaOp parse (.error e) = .error e) ∧
    (sContains e.text "Can't get tag id" = true →
      getTagOp parse (.error e) = .ok Option.none) ∧
    (sContains e.text "Can't get tag id" = false →
      getTagOp parse (.error e) = .error e) := by
  refine ⟨?_, ?_, ?_, ?_, ?_, ?_, ?_, ?_⟩ <;> intro h <;>
    simp [getTodoOp, getProjectOp, getAreaOp, getTagOp, getByIdOp, h]

/-- Witness for C8: a matching not-found error maps to an empty result, a
non-matching error propagates. -/
theorem c8_not_found_witness :
    getTodoOp (fun p => p)
      (.error ⟨.exec, "Things3 got an error: Can't get to do id \"X9\"."⟩) =
      .ok Option.none ∧
    getTodoOp (fun p => p) (.error ⟨.exec, "network unreachable"⟩) =
      .error ⟨.exec, "network unreachable"⟩ :=
  ⟨(c8_not_found PyVal (fun p => p)
      ⟨.exec, "Things3 got an error: Can't get to do id \"X9\"."⟩ rfl).1 (by decide),
   (c8_not_found PyVal (fun p => p) ⟨.exec, "network unreachable"⟩ rfl).2.1
      (by decide)⟩

/-! ## Helper lemmas -/

/-- `String.append` acts as list append on the underlying data. -/
theorem strDataAppend (a b : String) : (a ++ b).data = a.data ++ b.data := rfl

/-- A list is a prefix of itself followed by anything. -/
theorem prefixAppend (p : List Char) : ∀ rest, p.isPrefixOf (p ++ rest) = true := by
  intro rest
  simp

/-- Being a prefix is stable under extending the larger list. -/
theorem prefixExtend (p : List Char) :
    ∀ l rest, p.isPrefixOf l = true → p.isPrefixOf (l ++ rest) = true := by
  intro l rest h
  simp at h ⊢
  exact h.trans (l.prefix_append rest)

/-- An infix occurrence survives extending the list on the right. -/
theorem infixExtendR (n : List Char) :
    ∀ x y, isInfixL n x = true → isInfixL n (x ++ y) = true := by
  intro x
  induction x with
  | nil =>
    intro y h
    simp [isInfixL] at h
    subst h
    cases y <;> simp [isInfixL]
  | cons c rest ih =>
    intro y h
    simp [isInfixL] at h ⊢
    rcases h with h | h
    · exact Or.inl (h.trans ((c :: rest).prefix_append y))
    · exact Or.inr (ih y h)

/-- An infix occurrence survives extending the list on the left. -/
theorem infixLeftExt (n : List Char) :
    ∀ x y, isInfixL n y = true → isInfixL n (x ++ y) = true := by
  intro x
  induction x with
  | nil => intro y h; exact h
  | cons c rest ih =>
    intro y h
    simp [isInfixL]
    exact Or.inr (by simpa [isInfixL] using ih y h)

/-- Stripping leaves a list alone when both ends are non-whitespace. -/
theorem pyStripLWrap (a b : Char) (m : List Char)
    (ha : isPyWs a = false) (hb : isPyWs b = false) :
    pyStripL (a :: (m ++ [b])) = a :: (m ++ [b]) := by
  unfold pyStripL
  rw [List.dropWhile_cons]
  simp only [ha, if_false, Bool.false_eq_true]
  rw [show (a :: (m ++ [b])).reverse = b :: (m.reverse ++ [a]) by simp]
  rw [List.dropWhile_cons]
  simp only [hb, if_false, Bool.false_eq_true]
  simp

/-- Data decomposition of the `+` date-arithmetic expression. -/
theorem dataDatePlus (t : String) :
    ("(current date) + (" ++ t ++ " * days)").data =
      '(' :: (("current date) + (".data ++ t.data ++ " * days".data) ++ [')']) := by
  rw [strDataAppend, strDataAppend]
  rw [show "(current date) + (".data = '(' :: "current date) + (".data from rfl]
  rw [show " * days)".data = " * days".data ++ [')'] from by decide]
  simp [List.append_assoc]

/-- Data decomposition of the `-` date-arithmetic expression. -/
theorem dataDateMinus (t : String) :
    ("(current date) - (" ++ t ++ " * days)").data =
      '(' :: (("current date) - (".data ++ t.data ++ " * days".data) ++ [')']) := by
  rw [strDataAppend, strDataAppend]
  rw [show "(current date) - (".data = '(' :: "current date) - (".data from rfl]
  rw [show " * days)".data = " * days".data ++ [')'] from by decide]
  simp [List.append_assoc]

/-- The generic `+` date expression is recognized as an AppleScript
expression for every middle text. -/
theorem exprDatePlus (t : String) :
    isAppleScriptExpr ("(current date) + (" ++ t ++ " * days)") = true := by
  have hstrip : pyStrip ("(current date) + (" ++ t ++ " * days)") =
      "(current date) + (" ++ t ++ " * days)" := by
    show String.mk _ = _
    rw [show pyStripL ("(current date) + (" ++ t ++ " * days)").data =
        ("(current date) + (" ++ t ++ " * days)").data from by
      rw [dataDatePlus]
      exact pyStripLWrap '(' ')' _ (by decide) (by decide)]
  have hc2 : sStarts ("(current date) + (" ++ t ++ " * days)") "(current date)" = true := by
    unfold sStarts
    rw [strDataAppend, strDataAppend, List.append_assoc]
    exact prefixExtend _ _ _ (by decide)
  have hplus : sContains ("(current date) + (" ++ t ++ " * days)") "+" = true := by
    unfold sContains
    rw [strDataAppend, strDataAppend, List.append_assoc]
    exact infixExtendR _ _ _ (by decide)
  have hdays : sContains ("(current date) + (" ++ t ++ " * days)") "days" = true := by
    unfold sContains
    rw [strDataAppend, strDataAppend]
    exact infixLeftExt _ _ _ (by decide)
  simp [isAppleScriptExpr, hstrip, hc2, hplus, hdays]

/-- The generic `-` date expression is recognized as an AppleScript
expression for every middle text. -/
theorem exprDateMinus (t : String) :
    isAppleScriptExpr ("(current date) - (" ++ t ++ " * days)") = true := by
  have hstrip : pyStrip ("(current date) - (" ++ t ++ " * days)") =
      "(current date) - (" ++ t ++ " * days)" := by
    show String.mk _ = _
    rw [show pyStripL ("(current date) - (" ++ t ++ " * days)").data =
        ("(current date) - (" ++ t ++ " * days)").data from by
      rw [dataDateMinus]
      exact pyStripLWrap '(' ')' _ (by decide) (by decide)]
  have hc2 : sStarts ("(current date) - (" ++ t ++ " * days)") "(current date)" = true := by
    unfold sStarts
    rw [strDataAppend, strDataAppend, List.append_assoc]
    exact prefixExtend _ _ _ (by decide)
  have hminus : sContains ("(current date) - (" ++ t ++ " * days)") "-" = true := by
    unfold sContains
    rw [strDataAppend, strDataAppend, List.append_assoc]
    exact infixExtendR _ _ _ (by decide)
  have hdays : sContains ("(current date) - (" ++ t ++ " * days)") "days" = true := by
    unfold sContains
    rw [strDataAppend, strDataAppend]
    exact infixLeftExt _ _ _ (by decide)
  simp [isAppleScriptExpr, hstrip, hc2, hminus, hdays]

/-- Every date conversion is recognized as an AppleScript expression. -/
theorem exprFormatDate (today d : Int) :
    isAppleScriptExpr (formatDate today d) = true := by
  unfold formatDate
  dsimp only
  split
  · decide
  · split
    · decide
    · split
      · decide
      · split
        · exact exprDatePlus _
        · exact exprDateMinus _

/-- A date conversion is never the empty string. -/
theorem formatDateNe (today d : Int) : formatDate today d ≠ "" := by
  unfold formatDate
  dsimp only
  split
  · decide
  · split
    · decide
    · split
      · decide
      · split
        · intro h
          have := congrArg String.data h
          rw [dataDatePlus] at this
          exact absurd this (by simp [show ("" : String).data = [] from rfl])
        · intro h
          have := congrArg String.data h
          rw [dataDateMinus] at this
          exact absurd this (by simp [show ("" : String).data = [] from rfl])

/-- Tag statements are never due-date statements. -/
theorem filterTagStmts (today : Int) (ref ref2 : String) (o : Option (List String)) :
    (tagStmts today ref o).filter (isDueDateStmt ref2) = [] := by
  cases o with
  | none => rfl
  | some ts =>
    by_cases h : ts = [] <;> simp [tagStmts, h, isDueDateStmt]

/-- Project statements are never due-date statements. -/
theorem filterProjectStmts (ref ref2 : String) (o : Option (Option String)) :
    (projectStmts ref o).filter (isDueDateStmt ref2) = [] := by
  cases o with
  | none => rfl
  | some op =>
    cases op with
    | none => simp [projectStmts, isDueDateStmt]
    | some p => by_cases h : p = "" <;> simp [projectStmts, h, isDueDateStmt]

/-- Area statements are never due-date statements. -/
theorem filterAreaStmts (today : Int) (ref ref2 : String) (o : Option (Option String)) :
    (areaStmts today ref o).filter (isDueDateStmt ref2) = [] := by
  cases o with
  | none => rfl
  | some oa =>
    cases oa with
    | none => simp [areaStmts, isDueDateStmt]
    | some a => by_cases h : a = "" <;> simp [areaStmts, h, isDueDateStmt]

/-- When the `when` value is not `tomorrow`, scheduling statements are
never due-date statements. -/
theorem filterSchedulingStmts (today : Int) (ref ref2 : String) (o : Option String)
    (hw : ∀ w, o = some w → pyLower w ≠ "tomorrow") :
    (schedulingStmts today ref o).filter (isDueDateStmt ref2) = [] := by
  cases o with
  | none => rfl
  | some w =>
    have hne := hw w rfl
    simp only [schedulingStmts]
    rw [if_neg hne]
    split
    · simp [isDueDateStmt]
    · rfl

/-- Checklist statements are never due-date statements. -/
theorem filterChecklistStmts (today : Int) (ref ref2 : String) (o : Option (List String)) :
    (checklistStmts today ref o).filter (isDueDateStmt ref2) = [] := by
  cases o with
  | none => rfl
  | some items =>
    simp only [checklistStmts]
    split
    · induction items with
      | nil => rfl
      | cons it rest ih => simp [isDueDateStmt]
    · rfl

/-- The due-date branch for an absent key: no statements. -/
theorem dueDateStmtsAbsent (today : Int) (ref : String) :
    dueDateStmts today ref Option.none = [] := rfl

/-- The due-date branch for an explicit null: exactly the delete
statement. -/
theorem dueDateStmtsNull (today : Int) (ref : String) :
    dueDateStmts today ref (some Option.none) = [.del ("due date of " ++ ref)] := rfl

/-- The due-date branch for a present date value: exactly one set
statement carrying the unquoted date-arithmetic expression. -/
theorem dueDateStmtsDate (today : Int) (ref : String) (d : Int) :
    dueDateStmts today ref (some (some (.date d))) =
      [.setProp "due date" ref (formatDate today d)] := by
  simp only [dueDateStmts, dueTruthy, if_true]
  have hfd : builderFormatDate today (.date d) = formatDate today d := by
    simp [builderFormatDate, convert]
  rw [hfd, if_pos (formatDateNe today d)]
  have hcv : convertSetValue today (.str (formatDate today d)) = formatDate today d := by
    simp [convertSetValue, exprFormatDate today d]
  rw [hcv]

/-- A due-date set statement passes the due-date filter. -/
theorem filterDueSingleton (ref : String) (v : String) :
    [Stmt.setProp "due date" ref v].filter (isDueDateStmt ref) =
      [Stmt.setProp "due date" ref v] := by
  simp [isDueDateStmt]

/-- A due-date delete statement passes the due-date filter. -/
theorem filterDelSingleton (ref : String) :
    [Stmt.del ("due date of " ++ ref)].filter (isDueDateStmt ref) =
      [Stmt.del ("due date of " ++ ref)] := by
  simp [isDueDateStmt]

/-- Claim C5 counterexample: a field-update map with `due_date` absent
but `when: "tomorrow"` still generates a due-date set statement (the
scheduling branch sets a one-day due date), so "due_date absent implies
zero due-date statements" fails over all field-update maps. -/
theorem c5_counterexample :
    addTodoPropertyCommands 0 "newTodo"
      ⟨Option.none, Option.none, Option.none, Option.none, some "tomorrow",
        Option.none⟩ =
      [.move "newTodo" "list \"Today\"",
       .setProp "due date" "newTodo" "(current date) + (1 * days)"] ∧
    (addTodoPropertyCommands 0 "newTodo"
      ⟨Option.none, Option.none, Option.none, Option.none, some "tomorrow",
        Option.none⟩).filter (isDueDateStmt "newTodo") =
      [.setProp "due date" "newTodo" "(current date) + (1 * days)"] := by
  refine ⟨?_, ?_⟩ <;> rfl

/-- Claim C5 amended: for every field-update map whose `when` key is
absent or not `tomorrow` (case-insensitively), the due-date tri-state
holds: key absent generates zero due-date statements; an explicit null
generates exactly the delete-property statement; a date value generates
exactly one set-property statement whose value is the date-arithmetic
expression. -/
theorem c5_amended (today : Int) (todoRef : String) (data : TodoUpdateData)
    (hw : ∀ w, data.whenKey = some w → pyLower w ≠ "tomorrow") :
    (data.due_date = Option.none →
      (addTodoPropertyCommands today todoRef data).filter (isDueDateStmt todoRef) =
        []) ∧
    (data.due_date = some Option.none →
      (addTodoPropertyCommands today todoRef data).filter (isDueDateStmt todoRef) =
        [.del ("due date of " ++ todoRef)]) ∧
    (∀ d, data.due_date = some (some (.date d)) →
      (addTodoPropertyCommands today todoRef data).filter (isDueDateStmt todoRef) =
        [.setProp "due date" todoRef (formatDate today d)]) := by
  have hsched := filterSchedulingStmts today todoRef todoRef data.whenKey hw
  refine ⟨?_, ?_, ?_⟩
  · intro h
    simp only [addTodoPropertyCommands, h, dueDateStmtsAbsent, List.nil_append,
      List.filter_append, filterTagStmts, filterProjectStmts, filterAreaStmts,
      hsched, filterChecklistStmts, List.append_nil]
  · intro h
    simp only [addTodoPropertyCommands, h, dueDateStmtsNull, List.filter_append,
      filterTagStmts, filterProjectStmts, filterAreaStmts, hsched,
      filterChecklistStmts, List.append_nil, filterDelSingleton]
  · intro d h
    simp only [addTodoPropertyCommands, h, dueDateStmtsDate, List.filter_append,
      filterTagStmts, filterProjectStmts, filterAreaStmts, hsched,
      filterChecklistStmts, List.append_nil, filterDueSingleton]

/-- Witness for the amended C5 at concrete field-update maps. -/
theorem c5_amended_witness :
    (addTodoPropertyCommands 0 "newTodo"
      ⟨Option.none, some ["errand"], Option.none, Option.none, some "today",
        Option.none⟩).filter (isDueDateStmt "newTodo") = [] ∧
    (addTodoPropertyCommands 0 "newTodo"
      ⟨some Option.none, Option.none, Option.none, Option.none, Option.none,
        Option.none⟩).filter (isDueDateStmt "newTodo") =
      [.del "due date of newTodo"] ∧
    (addTodoPropertyCommands 0 "newTodo"
      ⟨some (some (.date 5)), Option.none, Option.none, Option.none, Option.none,
        Option.none⟩).filter (isDueDateStmt "newTodo") =
      [.setProp "due date" "newTodo" (formatDate 0 5)] := by
  refine ⟨?_, ?_, ?_⟩
  · exact (c5_amended 0 "newTodo" _
      (fun w hw => by injection hw with hw; rw [← hw]; decide)).1 rfl
  · exact (c5_amended 0 "newTodo" _ (fun w hw => by cases hw)).2.1 rfl
  · exact (c5_amended 0 "newTodo" _ (fun w hw => by cases hw)).2.2 5 rfl

/-- The chain loop runs the first applicable parser. -/
theorem chainGoFirst (raw : String) :
    ∀ (pre : List Parser) (p : Parser) (post : List Parser),
      (∀ q ∈ pre, q.canParse raw = false) → p.canParse raw = true →
      chainGo (pre ++ p :: post) raw = p.parse raw := by
  intro pre
  induction pre with
  | nil => intro p post _ hp; simp [chainGo, hp]
  | cons q rest ih =>
    intro p post hpre hp
    have hq : q.canParse raw = false := hpre q (by simp)
    rw [List.cons_append]
    simp only [chainGo, hq, Bool.false_eq_true, if_false]
    exact ih p post (fun r hr => hpre r (by simp [hr])) hp

/-- Claim C1: for a non-empty input, the default chain uses the first
parser in its ordered list whose predicate holds; if the parse routine of
that parser throws, the chain surfaces exactly that ParsingFailure — which
carries the raw text, the identity of the failing parser and an underlying
error — and never falls through to a later parser. -/
theorem c1_chain_first_match (raw : String) (pre : List Parser) (p : Parser)
    (post : List Parser) (hne : raw ≠ "")
    (hchain : defaultParsers = pre ++ p :: post)
    (hpre : ∀ q ∈ pre, q.canParse raw = false)
    (hp : p.canParse raw = true) :
    chainParse defaultParsers raw = p.parse raw ∧
    (∀ f, p.parse raw = .error f →
      chainParse defaultParsers raw = .error f ∧ f.raw_output = raw ∧
      f.parser_type = p.name ∧ f.original_error.isSome = true) := by
  have hmain : chainParse defaultParsers raw = p.parse raw := by
    unfold chainParse
    rw [if_neg hne, hchain]
    exact chainGoFirst raw pre p post hpre hp
  refine ⟨hmain, ?_⟩
  intro f hf
  refine ⟨hmain.trans hf, ?_⟩
  have hmem : p ∈ defaultParsers := by
    rw [hchain]
    exact List.mem_append_right _ (List.mem_cons_self _ _)
  have hcases : p = jsonParserS ∨ p = structuredRecordParserS ∨ p = dateParserS ∨
      p = listParserS ∨ p = primitiveParserS := by
    simpa [defaultParsers] using hmem
  rcases hcases with hP | hP | hP | hP | hP <;> subst hP
  · cases hjl : jsonLoads raw with
    | ok v =>
      rw [show jsonParserS.parse raw = .ok v from by simp [jsonParserS, hjl]] at hf
      exact Except.noConfusion hf
    | error e =>
      rw [show jsonParserS.parse raw = .error ⟨raw, "JSONParser", some e⟩ from by
        simp [jsonParserS, hjl]] at hf
      injection hf with h2
      rw [← h2]
      exact ⟨rfl, rfl, rfl⟩
  · simp only [structuredRecordParserS, structuredParse, structuredParseWith] at hf
    split at hf <;> exact Except.noConfusion hf
  · have hds : dateCanParse raw = true := hp
    simp only [dateParserS, dateParse] at hf
    cases hdm : dateMatch (pyStrip raw) with
    | some inner =>
      rw [hdm] at hf
      exact Except.noConfusion hf
    | none =>
      unfold dateCanParse at hds
      rw [hdm] at hds
      exact absurd hds (by simp)
  · rw [show listParserS.parse raw = .ok (listParse raw) from rfl] at hf
    exact Except.noConfusion hf
  · rw [show primitiveParserS.parse raw = .ok (primitiveParse raw) from rfl] at hf
    exact Except.noConfusion hf

/-- Witness for C1: on `{a,b,c}` the JSON parser is the first match (with
an empty unmatched prefix), the chain runs it, and its failure is exactly
what the chain raises. -/
theorem c1_chain_first_match_witness :
    ("\x7ba,b,c\x7d" : String) ≠ "" ∧ jsonCanParse "\x7ba,b,c\x7d" = true ∧
    chainParse defaultParsers "\x7ba,b,c\x7d" =
      jsonParserS.parse "\x7ba,b,c\x7d" ∧
    chainParse defaultParsers "\x7ba,b,c\x7d" =
      .error ⟨"\x7ba,b,c\x7d", "JSONParser", some "Expecting value"⟩ := by
  have h := c1_chain_first_match "\x7ba,b,c\x7d" [] jsonParserS
    [structuredRecordParserS, dateParserS, listParserS, primitiveParserS]
    (by decide) rfl (by intro q hq; cases hq) (by decide)
  exact ⟨by decide, by decide, h.1, (h.2 _ (by rfl)).1⟩

/-- Every character produced by the digit renderer is a decimal digit. -/
theorem natDigitsAuxDigits :
    ∀ fuel n c, c ∈ natDigitsAux fuel n → isDig c = true := by
  intro fuel
  induction fuel with
  | zero => intro n c h; simp [natDigitsAux] at h
  | succ f ih =>
    intro n c h
    cases n with
    | zero => simp [natDigitsAux] at h
    | succ m =>
      simp only [natDigitsAux, List.mem_append, List.mem_singleton] at h
      rcases h with h | h
      · exact ih _ _ h
      · subst h
        have h10 : (m + 1) % 10 < 10 := Nat.mod_lt _ (by omega)
        interval_cases h : (m + 1) % 10 <;> decide

/-- Every character of a rendered integer is a digit or a minus sign. -/
theorem intReprChars (i : Int) :
    ∀ c ∈ (intRepr i).data, isDig c = true ∨ c = '-' := by
  intro c hc
  unfold intRepr at hc
  have hnat : ∀ n : Nat, ∀ x ∈ (natRepr n).data, isDig x = true := by
    intro n x hx
    unfold natRepr at hx
    split at hx
    · rw [show ("0" : String).data = ['0'] from rfl] at hx
      simp at hx
      subst hx
      decide
    · exact natDigitsAuxDigits n n x hx
  split at hc
  · rw [strDataAppend] at hc
    rcases List.mem_append.mp hc with h | h
    · right
      rw [show ("-" : String).data = ['-'] from rfl] at h
      simpa using h
    · exact Or.inl (hnat _ _ h)
  · exact Or.inl (hnat _ _ hc)

/-- `replace` is the identity on strings that produce no escape: if the
output contains no backslash, the input equals the output and contained
no quote character. -/
theorem escQuotesInv : ∀ (l t : List Char), '\\' ∉ t → escQuotes l = t → l = t := by
  intro l
  induction l with
  | nil => intro t _ he; exact he
  | cons c rest ih =>
    intro t hbs he
    by_cases hc : c = '"'
    · subst hc
      simp only [escQuotes, if_pos rfl] at he
      rw [← he] at hbs
      simp at hbs
    · simp only [escQuotes, if_neg hc] at he
      cases t with
      | nil => exact absurd he (by simp)
      | cons t0 ts =>
        have h1 : c = t0 := (List.cons.injEq _ _ _ _ ▸ he).1
        have h2 : escQuotes rest = ts := (List.cons.injEq _ _ _ _ ▸ he).2
        have hbs' : '\\' ∉ ts := fun hm => hbs (List.mem_cons_of_mem _ hm)
        rw [h1, ih ts hbs' h2]

/-- No convertible value renders to the given quoted literal
`"<inner>"` when `inner` itself is recognized as an expression (so the
quoting branch can never receive it). -/
theorem convertNeQuoted (today : Int) (v : AppleValue) (hok : floatLitOk v = true)
    (inner : String) (hbs : '\\' ∉ inner.data)
    (hexprInner : isAppleScriptExpr inner = true)
    (hexprTarget : isAppleScriptExpr ⟨'"' :: (inner.data ++ ['"'])⟩ = false) :
    convert today v ≠ ⟨'"' :: (inner.data ++ ['"'])⟩ := by
  cases v with
  | null =>
    intro h
    have hd := congrArg String.data h
    injection hd with h1 _
    exact absurd h1 (by decide)
  | bool b =>
    cases b <;> intro h <;> [skip; skip] <;>
      { have hd := congrArg String.data h
        injection hd with h1 _
        exact absurd h1 (by decide) }
  | int n =>
    intro h
    have hq : '"' ∈ (intRepr n).data := by
      rw [show convert today (.int n) = intRepr n from rfl] at h
      rw [h]
      exact List.mem_cons_self _ _
    rcases intReprChars n '"' hq with hd | hd
    · exact absurd hd (by decide)
    · exact absurd hd (by decide)
  | float lit =>
    intro h
    rw [show convert today (.float lit) = lit from rfl] at h
    have hst : sStarts lit "\"" = true := by
      rw [h]
      unfold sStarts
      simp
    have hf : sStarts lit "\"" = false := by simpa [floatLitOk] using hok
    rw [hf] at hst
    exact Bool.noConfusion hst
  | str s =>
    by_cases hexpr : isAppleScriptExpr s = true
    · intro h
      rw [show convert today (.str s) =
        (if isAppleScriptExpr s then s else quoteString s) from rfl,
        if_pos hexpr] at h
      rw [h] at hexpr
      rw [hexprTarget] at hexpr
      exact Bool.noConfusion hexpr
    · intro h
      have hexpr' : isAppleScriptExpr s = false := Bool.eq_false_iff.mpr hexpr
      rw [show convert today (.str s) =
        (if isAppleScriptExpr s then s else quoteString s) from rfl,
        if_neg hexpr] at h
      have hd := congrArg String.data h
      injection hd with _ hd2
      have hd3 := congrArg List.dropLast hd2
      rw [List.dropLast_concat, List.dropLast_concat] at hd3
      have hs := escQuotesInv s.data inner.data hbs hd3
      have hsi : s = inner := by
        cases s
        cases inner
        exact congrArg String.mk hs
      rw [hsi, hexprInner] at hexpr'
      exact Bool.noConfusion hexpr'
  | date d =>
    intro h
    rw [show convert today (.date d) = formatDate today d from rfl] at h
    revert h
    unfold formatDate
    dsimp only
    split
    · intro h
      have hd := congrArg String.data h
      injection hd with h1 _
      exact absurd h1 (by decide)
    · split
      · intro h
        have hd := congrArg String.data h
        injection hd with h1 _
        exact absurd h1 (by decide)
      · split
        · intro h
          have hd := congrArg String.data h
          injection hd with h1 _
          exact absurd h1 (by decide)
        · split
          · intro h
            have hd := congrArg String.data h
            rw [dataDatePlus] at hd
            injection hd with h1 _
            exact absurd h1 (by decide)
          · intro h
            have hd := congrArg String.data h
            rw [dataDateMinus] at hd
            injection hd with h1 _
            exact absurd h1 (by decide)
  | list xs =>
    intro h
    rw [show convert today (.list xs) = (if xs.isEmpty then "\x7b\x7d"
      else "\x7b" ++ joinSep ", " (convertL today xs) ++ "\x7d") from rfl] at h
    by_cases hxs : xs.isEmpty
    · rw [if_pos hxs] at h
      have hd := congrArg String.data h
      injection hd with h1 _
      exact absurd h1 (by decide)
    · rw [if_neg hxs] at h
      have hd := congrArg String.data h
      rw [show ("\x7b" ++ joinSep ", " (convertL today xs) ++ "\x7d").data =
        '\x7b' :: ((joinSep ", " (convertL today xs)).data ++ "\x7d".data) from by
          rw [strDataAppend, strDataAppend]; rfl] at hd
      injection hd with h1 _
      exact absurd h1 (by decide)
  | dict kvs =>
    intro h
    rw [show convert today (.dict kvs) = (if kvs.isEmpty then "\x7b\x7d"
      else "\x7b" ++ joinSep ", " (convertD today kvs) ++ "\x7d") from rfl] at h
    by_cases hkv : kvs.isEmpty
    · rw [if_pos hkv] at h
      have hd := congrArg String.data h
      injection hd with h1 _
      exact absurd h1 (by decide)
    · rw [if_neg hkv] at h
      have hd := congrArg String.data h
      rw [show ("\x7b" ++ joinSep ", " (convertD today kvs) ++ "\x7d").data =
        '\x7b' :: ((joinSep ", " (convertD today kvs)).data ++ "\x7d".data) from by
          rw [strDataAppend, strDataAppend]; rfl] at hd
      injection hd with h1 _
      exact absurd h1 (by decide)

/-- Claim C10: the converter treats the literal strings `missing value`,
`true` and `false` as expressions and emits them verbatim and unquoted;
consequently no convertible value (with a sane float rendering) can
produce the quoted string literals `"true"`, `"false"` or
`"missing value"` through `convert`. -/
theorem c10_expression_literals (today : Int) :
    convert today (.str "missing value") = "missing value" ∧
    convert today (.str "true") = "true" ∧
    convert today (.str "false") = "false" ∧
    (∀ v : AppleValue, floatLitOk v = true →
      convert today v ≠ "\"true\"" ∧ convert today v ≠ "\"false\"" ∧
      convert today v ≠ "\"missing value\"") := by
  refine ⟨by rfl, by rfl, by rfl, ?_⟩
  intro v hok
  exact ⟨convertNeQuoted today v hok "true" (by decide) (by decide) (by decide),
    convertNeQuoted today v hok "false" (by decide) (by decide) (by decide),
    convertNeQuoted today v hok "missing value" (by decide) (by decide) (by decide)⟩

/-- Witness for C10 at concrete values. -/
theorem c10_expression_literals_witness :
    convert 0 (.str "true") = "true" ∧
    convert 0 (.str "missing value") ≠ "\"missing value\"" ∧
    convert 0 (.int 7) ≠ "\"true\"" :=
  ⟨(c10_expression_literals 0).2.1,
   ((c10_expression_literals 0).2.2.2 (.str "missing value") (by decide)).2.2,
   ((c10_expression_literals 0).2.2.2 (.int 7) (by decide)).1⟩
